import Mathlib

/-!
Verification of the extraction-caching-and-batch-orchestration core of the
`genai-data-ai` repository.

Shallow embedding of:
* `src/genai_blueprint/webapp/pages/demos/hackathon/core/hash_utils.py`
  (`get_content_hash`, `get_analysis_hash`);
* `src/genai_blueprint/hackathon/cli_commands/commands_baml.py`
  (`ProcessingStats`, `BamlStructuredProcessor.abatch_analyze_documents`,
  `BamlStructuredProcessor.analyze_document`).

External collaborators (the `hashlib.md5` digest, the BAML
`ExtractFromDocument` call, the pydantic stamping step
`model_cls(**result_dict)`, and the KV-store `save_object_to_kvstore` /
`load_object` functions) are modelled as explicit function parameters, so
every theorem quantifies over their possible behaviours.  The non-determinism
of `asyncio.as_completed` (results are collected in completion order, not
submission order) is modelled by an explicit completion-order list `π`:
`π` lists the indices of the submitted tasks in the order they complete, and
theorems that depend on it carry the hypothesis that `π` is a permutation of
`List.range n` for `n` submitted tasks.
-/

/-! ## Hash utilities (`hash_utils.py`)

`get_content_hash(content)` is `hashlib.md5(content.encode('utf-8')).hexdigest()`.
The md5 digest (composed with the injective utf-8 encoding) is an external
library call, modelled as a parameter `md5 : String → String`; the claims about
collision-freedom hypothesise an injective digest. -/

/-- Embedding of `get_content_hash`: apply the digest to the content string. -/
def get_content_hash (md5 : String → String) (content : String) : String :=
  md5 content

/-- Embedding of `get_analysis_hash`: the source computes
`combined_content = f"{extracted_info}|{kcp_content}"` and digests it. -/
def get_analysis_hash (md5 : String → String) (extracted_info kcp_content : String) : String :=
  get_content_hash md5 (extracted_info ++ "|" ++ kcp_content)

/-- Helper: splitting a separator-joined char list is unambiguous as soon as the
left parts are separator-free. -/
theorem sep_join_inj {a a' b b' : List Char}
    (ha : '|' ∉ a) (ha' : '|' ∉ a')
    (h : a ++ '|' :: b = a' ++ '|' :: b') : a = a' ∧ b = b' := by
  induction a generalizing a' with
  | nil =>
    cases a' with
    | nil => simpa using h
    | cons x xs =>
      simp only [List.nil_append, List.cons_append, List.cons.injEq] at h
      exact absurd (h.1 ▸ List.mem_cons_self x xs) ha'
  | cons x xs ih =>
    cases a' with
    | nil =>
      simp only [List.nil_append, List.cons_append, List.cons.injEq] at h
      exact absurd (h.1.symm ▸ List.mem_cons_self x xs) ha
    | cons y ys =>
      simp only [List.cons_append, List.cons.injEq] at h
      have hx : '|' ∉ xs := fun hm => ha (List.mem_cons_of_mem x hm)
      have hy : '|' ∉ ys := fun hm => ha' (List.mem_cons_of_mem y hm)
      obtain ⟨h1, h2⟩ := ih hx hy h.2
      exact ⟨by rw [h.1, h1], h2⟩

/-- Helper: string-level unambiguity of the `"|"`-join for `'|'`-free left parts. -/
theorem analysis_join_inj {e₁ k₁ e₂ k₂ : String}
    (he₁ : '|' ∉ e₁.data) (he₂ : '|' ∉ e₂.data)
    (h : e₁ ++ "|" ++ k₁ = e₂ ++ "|" ++ k₂) : e₁ = e₂ ∧ k₁ = k₂ := by
  have hd : e₁.data ++ '|' :: k₁.data = e₂.data ++ '|' :: k₂.data := by
    have := congrArg String.data h
    simpa [String.data_append] using this
  obtain ⟨h1, h2⟩ := sep_join_inj he₁ he₂ hd
  exact ⟨String.ext h1, String.ext h2⟩

/-- C3: the claim as stated is false: `get_analysis_hash` is not injective on
all `(extracted_info, kcp_content)` pairs even for a collision-free digest,
because the parts are joined with a `"|"` that may itself occur in the content.
With the (injective) identity digest, the distinct pairs `("a|b", "c")` and
`("a", "b|c")` receive the same hash. -/
theorem C3_counterexample :
    Function.Injective (fun s : String => s) ∧
    (("a|b", "c") : String × String) ≠ ("a", "b|c") ∧
    get_analysis_hash (fun s => s) "a|b" "c" = get_analysis_hash (fun s => s) "a" "b|c" :=
  ⟨fun _ _ h => h, by decide, rfl⟩

/-- C3 (amended): `get_analysis_hash` is deterministic (it is a function of its
inputs), the spec's exact test pair `["ab","c"]` vs `["a","bc"]` produces
different fingerprints for any injective digest, and the hash is injective on
pairs whose first component does not contain the separator `'|'`; injectivity
on arbitrary pairs fails (see the counterexample). -/
theorem C3_analysis_hash_injective (md5 : String → String)
    (hmd5 : Function.Injective md5) :
    get_analysis_hash md5 "ab" "c" ≠ get_analysis_hash md5 "a" "bc" ∧
    ∀ e₁ k₁ e₂ k₂ : String, '|' ∉ e₁.data → '|' ∉ e₂.data →
      get_analysis_hash md5 e₁ k₁ = get_analysis_hash md5 e₂ k₂ →
      e₁ = e₂ ∧ k₁ = k₂ := by
  constructor
  · intro h
    have := hmd5 h
    simp only [String.ext_iff] at this
    revert this
    decide
  · intro e₁ k₁ e₂ k₂ he₁ he₂ h
    exact analysis_join_inj he₁ he₂ (hmd5 h)

/-- C3 witness: the amended theorem applied to the identity digest, at the
spec's exact test pair and at a concrete separator-free pair. -/
theorem C3_analysis_hash_injective_witness :
    get_analysis_hash (fun s => s) "ab" "c" ≠ get_analysis_hash (fun s => s) "a" "bc" ∧
    ("ab" = "a" ∧ "c" = "bc" → False) :=
  ⟨(C3_analysis_hash_injective (fun s => s) (fun _ _ h => h)).1,
   by decide⟩

/-! ## `ProcessingStats` (`commands_baml.py`, lines 54–107)

`start_time`/elapsed time are wall-clock and not modelled; the counters and the
error-detail list are modelled exactly.  `create_error_table` renders a Rich
table whose data rows are `error_details[-10:]` plus, when more than 10 errors
exist, one overflow row `("...", "and k more errors")`; the two parts are
modelled separately. -/

/-- Counters and error log of `ProcessingStats.__init__`. -/
structure ProcessingStats where
  files_discovered : Nat := 0
  files_processed : Nat := 0
  cache_hits : Nat := 0
  errors : Nat := 0
  error_details : List (String × String) := []
deriving Repr, DecidableEq

/-- The freshly-constructed stats object. -/
def ProcessingStats.init : ProcessingStats := {}

/-- Embedding of `ProcessingStats.add_error`: increment `errors` and append a
`(file, error)` record. -/
def ProcessingStats.add_error (s : ProcessingStats) (file error : String) : ProcessingStats :=
  { s with errors := s.errors + 1, error_details := s.error_details ++ [(file, error)] }

/-- Data rows of `create_error_table`: the slice `error_details[-10:]`
(the last at most 10 records, oldest of them first). -/
def ProcessingStats.create_error_table_rows (s : ProcessingStats) : List (String × String) :=
  s.error_details.drop (s.error_details.length - 10)

/-- Overflow row of `create_error_table`: present iff more than 10 errors were
recorded, carrying the count of the hidden ones. -/
def ProcessingStats.create_error_table_overflow (s : ProcessingStats) : Option (String × String) :=
  if s.error_details.length > 10 then
    some ("...", "and " ++ toString (s.error_details.length - 10) ++ " more errors")
  else none

/-- The mutations applied to a `ProcessingStats` instance during processing:
`add_error` (lines 67–68, via line 182/202/244), the cache-hit increment
(line 138) and the processed-file increment (line 193). -/
inductive StatsOp where
  | addError (file error : String)
  | cacheHit
  | fileProcessed
deriving Repr, DecidableEq

/-- Apply one mutation to the stats object. -/
def applyStatsOp (s : ProcessingStats) : StatsOp → ProcessingStats
  | .addError f e => s.add_error f e
  | .cacheHit => { s with cache_hits := s.cache_hits + 1 }
  | .fileProcessed => { s with files_processed := s.files_processed + 1 }

/-- Apply a sequence of mutations in order. -/
def applyStatsOps (s : ProcessingStats) (ops : List StatsOp) : ProcessingStats :=
  ops.foldl applyStatsOp s

/-! ## Batch orchestrator (`BamlStructuredProcessor.abatch_analyze_documents`)

The embedding is generic in the artifact type `α` (the pydantic model class).
External collaborators become parameters:
* `extract : String → Except String α` — the BAML `ExtractFromDocument` call on
  one document's markdown content: an artifact, or an exception message;
* `stamp : α → String → Except String α` — the stamping step
  `result.model_dump(); result_dict["document_id"] = doc_id;
  self.model_cls(**result_dict)`, which may raise (e.g. validation);
* `save : String → α → Option String` — `save_object_to_kvstore`: `none` on
  success, `some msg` when the write raises.  On success the KV store maps the
  document id to the saved artifact; on failure it is unchanged.

`self.kvstore_id` is always truthy (`kvstore_id or KV_STORE_ID` with
`KV_STORE_ID = "file"`), so the cache-probe guard on line 131 reduces to
`not self.force`, and the save on lines 197–198 is always attempted.

The input lists `document_ids` and `markdown_contents` (zipped strictly by the
source) are modelled as one list of pairs `docs`. -/

/-- Result of one batch call: the returned `analyzed_docs` list, the final KV
store contents, the final stats, the number of `ExtractFromDocument` calls
made, and the number of KV-store reads (`load_object` probes) made. -/
structure BatchResult (α : Type) where
  analyzed_docs : List α
  cache : String → Option α
  stats : ProcessingStats
  extract_calls : Nat
  cache_reads : Nat

/-- One iteration of the cache-probe loop (lines 133–142): a present entry is
appended to `analyzed_docs` and counted as a cache hit; an absent one leaves
the document on the remaining work list. -/
def cacheProbeStep {α : Type} (cache : String → Option α)
    (acc : List α × List (String × String) × ProcessingStats)
    (doc : String × String) : List α × List (String × String) × ProcessingStats :=
  match cache doc.1 with
  | some a => (acc.1 ++ [a], acc.2.1,
      { acc.2.2 with cache_hits := acc.2.2.cache_hits + 1 })
  | none => (acc.1, acc.2.1 ++ [doc], acc.2.2)

/-- The cache-probe loop over all documents. -/
def cacheProbe {α : Type} (cache : String → Option α) (stats : ProcessingStats)
    (docs : List (String × String)) : List α × List (String × String) × ProcessingStats :=
  docs.foldl (cacheProbeStep cache) ([], [], stats)

/-- The probe phase of the batch call: skipped entirely when `force` is set
(lines 131, 143–145), in which case every document remains to be processed. -/
def batchProbe {α : Type} (force : Bool) (cache : String → Option α)
    (stats : ProcessingStats) (docs : List (String × String)) :
    List α × List (String × String) × ProcessingStats :=
  if force then ([], docs, stats) else cacheProbe cache stats docs

/-- Outcome of each submitted task, indexed by submission order (line 154:
one `ExtractFromDocument(content)` task per remaining document). -/
def taskOutcomes {α : Type} (extract : String → Except String α)
    (remaining : List (String × String)) : List (Except String α) :=
  remaining.map fun dc => extract dc.2

/-- The `results` list built by the `asyncio.as_completed` loop
(lines 168–176): outcomes in completion order `π` (`π j` is the submission
index of the `j`-th task to complete); exceptions are caught and appended like
successes, so the list always has one entry per completed task. -/
def completionResults {α : Type} (extract : String → Except String α)
    (remaining : List (String × String)) (π : List Nat) : List (Except String α) :=
  π.map fun j => (taskOutcomes extract remaining).getD j (Except.error "pending")

/-- The `zip(remaining_ids, results, strict=True)` pairing of line 179:
ids in submission order against results in completion order. -/
def batchPairs {α : Type} (extract : String → Except String α) (force : Bool)
    (cache : String → Option α) (stats : ProcessingStats)
    (docs : List (String × String)) (π : List Nat) : List (String × Except String α) :=
  let remaining := (batchProbe force cache stats docs).2.1
  (remaining.map Prod.fst).zip (completionResults extract remaining π)

/-- State threaded through the result-processing loop of lines 179–203. -/
structure MergeState (α : Type) where
  analyzed_docs : List α
  cache : String → Option α
  stats : ProcessingStats

/-- One iteration of the result-processing loop (lines 179–203):
an exception outcome records an error and moves on (lines 180–184); otherwise
the artifact is stamped with the document id (lines 188–190; a raise there is
caught by the `except` of line 200 and recorded, with nothing appended); a
stamped artifact is appended to `analyzed_docs` and counted as processed
(lines 192–193) *before* the save of line 198, so a raising save still leaves
it in the returned list, recording the save error (lines 200–203). -/
def mergeStep {α : Type} (stamp : α → String → Except String α)
    (save : String → α → Option String)
    (st : MergeState α) (p : String × Except String α) : MergeState α :=
  match p.2 with
  | .error e => { st with stats := st.stats.add_error p.1 e }
  | .ok result =>
    match stamp result p.1 with
    | .error e => { st with stats := st.stats.add_error p.1 e }
    | .ok stamped =>
      let st1 : MergeState α :=
        { st with analyzed_docs := st.analyzed_docs ++ [stamped],
                  stats := { st.stats with files_processed := st.stats.files_processed + 1 } }
      match save p.1 stamped with
      | none => { st1 with cache := fun k => if k = p.1 then some stamped else st1.cache k }
      | some e => { st1 with stats := st1.stats.add_error p.1 e }

/-- Embedding of `BamlStructuredProcessor.abatch_analyze_documents`.
The early return of lines 147–148 coincides with running the (empty)
result-processing loop, so it needs no special case.  `extract_calls` counts
the tasks created on line 154; `cache_reads` counts the `load_object` calls of
the probe phase (one per document, zero when `force` skips the phase). -/
def abatch_analyze_documents {α : Type} (extract : String → Except String α)
    (stamp : α → String → Except String α) (save : String → α → Option String)
    (force : Bool) (cache : String → Option α) (stats : ProcessingStats)
    (docs : List (String × String)) (π : List Nat) : BatchResult α :=
  let probe := batchProbe force cache stats docs
  let final := (batchPairs extract force cache stats docs π).foldl
    (mergeStep stamp save) ⟨probe.1, cache, probe.2.2⟩
  ⟨final.analyzed_docs, final.cache, final.stats, probe.2.1.length,
    if force then 0 else docs.length⟩

/-- Embedding of `BamlStructuredProcessor.analyze_document` (lines 207–225):
run the batch call on the single document and return its first result, or
raise `ValueError(f"Failed to process document: {document_id}")` when the
batch returned no results.  (The `asyncio.run` / `nest_asyncio` event-loop
plumbing is identity in this embedding.) -/
def analyze_document {α : Type} (extract : String → Except String α)
    (stamp : α → String → Except String α) (save : String → α → Option String)
    (force : Bool) (cache : String → Option α) (stats : ProcessingStats)
    (document_id markdown : String) (π : List Nat) : Except String α :=
  match (abatch_analyze_documents extract stamp save force cache stats
      [(document_id, markdown)] π).analyzed_docs with
  | [] => Except.error ("Failed to process document: " ++ document_id)
  | a :: _ => Except.ok a

/-! ## Closed forms for the probe and merge folds -/

/-- Boolean success test on an `Except` outcome. -/
def exceptOk {α : Type} : Except String α → Bool
  | .ok _ => true
  | .error _ => false

/-- The artifact a pair contributes to `analyzed_docs`, if any: present exactly
when the outcome is a success and stamping succeeds. -/
def mergeOutcomeArtifact {α : Type} (stamp : α → String → Except String α)
    (p : String × Except String α) : Option α :=
  match p.2 with
  | .error _ => none
  | .ok result =>
    match stamp result p.1 with
    | .error _ => none
    | .ok stamped => some stamped

/-- The error records a pair contributes to the stats: one for an exception
outcome, one for a raising stamp, one for a raising save, none otherwise. -/
def pairErrors {α : Type} (stamp : α → String → Except String α)
    (save : String → α → Option String) (p : String × Except String α) :
    List (String × String) :=
  match p.2 with
  | .error e => [(p.1, e)]
  | .ok result =>
    match stamp result p.1 with
    | .error e => [(p.1, e)]
    | .ok stamped =>
      match save p.1 stamped with
      | none => []
      | some e => [(p.1, e)]

/-- Closed form of the probe loop: hits in order, misses in order, and the
cache-hit counter advanced by the number of hits; no other field changes. -/
theorem cacheProbe_spec {α : Type} (cache : String → Option α)
    (docs : List (String × String)) :
    ∀ acc : List α × List (String × String) × ProcessingStats,
      docs.foldl (cacheProbeStep cache) acc =
        (acc.1 ++ docs.filterMap (fun d => cache d.1),
         acc.2.1 ++ docs.filter (fun d => (cache d.1).isNone),
         { acc.2.2 with cache_hits :=
             acc.2.2.cache_hits + (docs.filterMap (fun d => cache d.1)).length }) := by
  induction docs with
  | nil => intro acc; simp
  | cons d ds ih =>
    intro acc
    rcases h : cache d.1 with _ | a
    · rw [List.foldl_cons, ih]
      simp [cacheProbeStep, h, List.filterMap_cons, List.filter_cons]
    · rw [List.foldl_cons, ih]
      simp [cacheProbeStep, h, List.filterMap_cons, List.filter_cons]
      omega

/-- One step of the result-processing loop: effect on `analyzed_docs`. -/
theorem mergeStep_analyzed {α : Type} (stamp : α → String → Except String α)
    (save : String → α → Option String) (st : MergeState α)
    (p : String × Except String α) :
    (mergeStep stamp save st p).analyzed_docs =
      st.analyzed_docs ++ (mergeOutcomeArtifact stamp p).toList := by
  rcases hout : p.2 with e | result
  · simp [mergeStep, mergeOutcomeArtifact, hout]
  · rcases hst : stamp result p.1 with e | stamped
    · simp [mergeStep, mergeOutcomeArtifact, hout, hst]
    · rcases hsv : save p.1 stamped with _ | e <;>
        simp [mergeStep, mergeOutcomeArtifact, hout, hst, hsv]

/-- One step of the result-processing loop: effect on the error log. -/
theorem mergeStep_error_details {α : Type} (stamp : α → String → Except String α)
    (save : String → α → Option String) (st : MergeState α)
    (p : String × Except String α) :
    (mergeStep stamp save st p).stats.error_details =
      st.stats.error_details ++ pairErrors stamp save p := by
  rcases hout : p.2 with e | result
  · simp [mergeStep, pairErrors, hout, ProcessingStats.add_error]
  · rcases hst : stamp result p.1 with e | stamped
    · simp [mergeStep, pairErrors, hout, hst, ProcessingStats.add_error]
    · rcases hsv : save p.1 stamped with _ | e <;>
        simp [mergeStep, pairErrors, hout, hst, hsv, ProcessingStats.add_error]

/-- One step of the result-processing loop: effect on the error counter. -/
theorem mergeStep_errors {α : Type} (stamp : α → String → Except String α)
    (save : String → α → Option String) (st : MergeState α)
    (p : String × Except String α) :
    (mergeStep stamp save st p).stats.errors =
      st.stats.errors + (pairErrors stamp save p).length := by
  rcases hout : p.2 with e | result
  · simp [mergeStep, pairErrors, hout, ProcessingStats.add_error]
  · rcases hst : stamp result p.1 with e | stamped
    · simp [mergeStep, pairErrors, hout, hst, ProcessingStats.add_error]
    · rcases hsv : save p.1 stamped with _ | e <;>
        simp [mergeStep, pairErrors, hout, hst, hsv, ProcessingStats.add_error]

/-- One step of the result-processing loop: effect on the processed counter. -/
theorem mergeStep_files_processed {α : Type} (stamp : α → String → Except String α)
    (save : String → α → Option String) (st : MergeState α)
    (p : String × Except String α) :
    (mergeStep stamp save st p).stats.files_processed =
      st.stats.files_processed + (mergeOutcomeArtifact stamp p).toList.length := by
  rcases hout : p.2 with e | result
  · simp [mergeStep, mergeOutcomeArtifact, hout, ProcessingStats.add_error]
  · rcases hst : stamp result p.1 with e | stamped
    · simp [mergeStep, mergeOutcomeArtifact, hout, hst, ProcessingStats.add_error]
    · rcases hsv : save p.1 stamped with _ | e <;>
        simp [mergeStep, mergeOutcomeArtifact, hout, hst, hsv, ProcessingStats.add_error]

/-- One step of the result-processing loop: the cache-hit counter is untouched. -/
theorem mergeStep_cache_hits {α : Type} (stamp : α → String → Except String α)
    (save : String → α → Option String) (st : MergeState α)
    (p : String × Except String α) :
    (mergeStep stamp save st p).stats.cache_hits = st.stats.cache_hits := by
  rcases hout : p.2 with e | result
  · simp [mergeStep, hout, ProcessingStats.add_error]
  · rcases hst : stamp result p.1 with e | stamped
    · simp [mergeStep, hout, hst, ProcessingStats.add_error]
    · rcases hsv : save p.1 stamped with _ | e <;>
        simp [mergeStep, hout, hst, hsv, ProcessingStats.add_error]

/-- One step of the result-processing loop: the discovered counter is untouched. -/
theorem mergeStep_files_discovered {α : Type} (stamp : α → String → Except String α)
    (save : String → α → Option String) (st : MergeState α)
    (p : String × Except String α) :
    (mergeStep stamp save st p).stats.files_discovered = st.stats.files_discovered := by
  rcases hout : p.2 with e | result
  · simp [mergeStep, hout, ProcessingStats.add_error]
  · rcases hst : stamp result p.1 with e | stamped
    · simp [mergeStep, hout, hst, ProcessingStats.add_error]
    · rcases hsv : save p.1 stamped with _ | e <;>
        simp [mergeStep, hout, hst, hsv, ProcessingStats.add_error]

/-- Fold form: `analyzed_docs` after the result-processing loop is the initial
list followed by the successfully stamped artifacts, in pair order. -/
theorem mergeFold_analyzed {α : Type} (stamp : α → String → Except String α)
    (save : String → α → Option String) (pairs : List (String × Except String α)) :
    ∀ st : MergeState α,
      (pairs.foldl (mergeStep stamp save) st).analyzed_docs =
        st.analyzed_docs ++ pairs.filterMap (mergeOutcomeArtifact stamp) := by
  induction pairs with
  | nil => intro st; simp
  | cons p ps ih =>
    intro st
    rw [List.foldl_cons, ih, mergeStep_analyzed]
    rcases h : mergeOutcomeArtifact stamp p with _ | a <;>
      simp [List.filterMap_cons, h]

/-- Fold form: the error log after the result-processing loop is the initial
log followed by one record per failing step, in pair order. -/
theorem mergeFold_error_details {α : Type} (stamp : α → String → Except String α)
    (save : String → α → Option String) (pairs : List (String × Except String α)) :
    ∀ st : MergeState α,
      (pairs.foldl (mergeStep stamp save) st).stats.error_details =
        st.stats.error_details ++ pairs.flatMap (pairErrors stamp save) := by
  induction pairs with
  | nil => intro st; simp
  | cons p ps ih =>
    intro st
    rw [List.foldl_cons, ih, mergeStep_error_details]
    simp [List.flatMap_cons]

/-- Fold form: the error counter advances by the number of error records. -/
theorem mergeFold_errors {α : Type} (stamp : α → String → Except String α)
    (save : String → α → Option String) (pairs : List (String × Except String α)) :
    ∀ st : MergeState α,
      (pairs.foldl (mergeStep stamp save) st).stats.errors =
        st.stats.errors + (pairs.flatMap (pairErrors stamp save)).length := by
  induction pairs with
  | nil => intro st; simp
  | cons p ps ih =>
    intro st
    rw [List.foldl_cons, ih, mergeStep_errors]
    simp [List.flatMap_cons]
    omega

/-- Fold form: the processed counter advances by the number of stamped
artifacts. -/
theorem mergeFold_files_processed {α : Type} (stamp : α → String → Except String α)
    (save : String → α → Option String) (pairs : List (String × Except String α)) :
    ∀ st : MergeState α,
      (pairs.foldl (mergeStep stamp save) st).stats.files_processed =
        st.stats.files_processed + (pairs.filterMap (mergeOutcomeArtifact stamp)).length := by
  induction pairs with
  | nil => intro st; simp
  | cons p ps ih =>
    intro st
    rw [List.foldl_cons, ih, mergeStep_files_processed]
    rcases h : mergeOutcomeArtifact stamp p with _ | a <;>
      simp [List.filterMap_cons, h] <;> omega

/-- Fold form: the cache-hit counter never changes in the result loop. -/
theorem mergeFold_cache_hits {α : Type} (stamp : α → String → Except String α)
    (save : String → α → Option String) (pairs : List (String × Except String α)) :
    ∀ st : MergeState α,
      (pairs.foldl (mergeStep stamp save) st).stats.cache_hits = st.stats.cache_hits := by
  induction pairs with
  | nil => intro st; simp
  | cons p ps ih =>
    intro st
    rw [List.foldl_cons, ih, mergeStep_cache_hits]

/-- Fold form: the discovered counter never changes in the result loop. -/
theorem mergeFold_files_discovered {α : Type} (stamp : α → String → Except String α)
    (save : String → α → Option String) (pairs : List (String × Except String α)) :
    ∀ st : MergeState α,
      (pairs.foldl (mergeStep stamp save) st).stats.files_discovered =
        st.stats.files_discovered := by
  induction pairs with
  | nil => intro st; simp
  | cons p ps ih =>
    intro st
    rw [List.foldl_cons, ih, mergeStep_files_discovered]

/-- The result loop touches the KV store only at the ids of its pairs. -/
theorem mergeFold_cache_not_mem {α : Type} (stamp : α → String → Except String α)
    (save : String → α → Option String) (pairs : List (String × Except String α))
    (k : String) (hk : ∀ p ∈ pairs, p.1 ≠ k) :
    ∀ st : MergeState α,
      (pairs.foldl (mergeStep stamp save) st).cache k = st.cache k := by
  induction pairs with
  | nil => intro st; simp
  | cons p ps ih =>
    intro st
    rw [List.foldl_cons, ih fun q hq => hk q (List.mem_cons_of_mem p hq)]
    have hp : p.1 ≠ k := hk p (List.mem_cons_self p ps)
    rcases hout : p.2 with e | result
    · simp [mergeStep, hout]
    · rcases hst : stamp result p.1 with e | stamped
      · simp [mergeStep, hout, hst]
      · rcases hsv : save p.1 stamped with _ | e
        · simp only [mergeStep, hout, hst, hsv]
          exact if_neg fun h => hp h.symm
        · simp [mergeStep, hout, hst, hsv]

/-- Under pairwise-distinct ids, a pair whose outcome, stamping and save all
succeed leaves its stamped artifact in the KV store under its id. -/
theorem mergeFold_cache_of_mem {α : Type} (stamp : α → String → Except String α)
    (save : String → α → Option String) (pairs : List (String × Except String α))
    (hnd : (pairs.map Prod.fst).Nodup) (p : String × Except String α) (hp : p ∈ pairs)
    (a s : α) (hout : p.2 = Except.ok a) (hst : stamp a p.1 = Except.ok s)
    (hsv : save p.1 s = none) :
    ∀ st : MergeState α,
      (pairs.foldl (mergeStep stamp save) st).cache p.1 = some s := by
  induction pairs with
  | nil => exact absurd hp (List.not_mem_nil p)
  | cons q qs ih =>
    intro st
    rw [List.map_cons, List.nodup_cons] at hnd
    rcases List.mem_cons.mp hp with rfl | hmem
    · have hk : ∀ r ∈ qs, r.1 ≠ p.1 := by
        intro r hr heq
        exact hnd.1 (heq ▸ List.mem_map_of_mem Prod.fst hr)
      rw [List.foldl_cons, mergeFold_cache_not_mem stamp save qs p.1 hk]
      simp [mergeStep, hout, hst, hsv]
    · exact ih hnd.2 hmem _

/-- Reading a list back by indices `0..length-1` with any default reproduces it. -/
theorem map_getD_range {β : Type} (l : List β) (d : β) :
    (List.range l.length).map (fun j => l.getD j d) = l := by
  induction l with
  | nil => simp
  | cons x xs ih =>
    rw [List.length_cons, List.range_succ_eq_map, List.map_cons, List.map_map]
    have hc : ((fun j => (x :: xs).getD j d) ∘ Nat.succ) = fun j => xs.getD j d := by
      funext j
      simp
    rw [List.getD_cons_zero, hc, ih]

/-- A completion order that is a permutation of the submitted task indices
yields a result list that is a permutation of the submission-order outcomes. -/
theorem completionResults_perm {α : Type} (extract : String → Except String α)
    (remaining : List (String × String)) (π : List Nat)
    (hπ : π.Perm (List.range remaining.length)) :
    (completionResults extract remaining π).Perm (taskOutcomes extract remaining) := by
  have h := hπ.map fun j => (taskOutcomes extract remaining).getD j (Except.error "pending")
  have hlen : (taskOutcomes extract remaining).length = remaining.length := by
    simp [taskOutcomes]
  rw [show List.range remaining.length = List.range (taskOutcomes extract remaining).length
      from by rw [hlen], map_getD_range] at h
  exact h

/-- Length of the completion-order result list. -/
theorem completionResults_length {α : Type} (extract : String → Except String α)
    (remaining : List (String × String)) (π : List Nat)
    (hπ : π.Perm (List.range remaining.length)) :
    (completionResults extract remaining π).length = remaining.length := by
  simp [completionResults, hπ.length_eq]

/-- The ids of the zipped pairs are exactly the remaining ids, in order. -/
theorem batchPairs_map_fst {α : Type} (extract : String → Except String α) (force : Bool)
    (cache : String → Option α) (stats : ProcessingStats) (docs : List (String × String))
    (π : List Nat)
    (hπ : π.Perm (List.range (batchProbe force cache stats docs).2.1.length)) :
    (batchPairs extract force cache stats docs π).map Prod.fst =
      (batchProbe force cache stats docs).2.1.map Prod.fst := by
  unfold batchPairs
  apply List.map_fst_zip
  rw [completionResults_length extract _ π hπ, List.length_map]

/-- The outcomes of the zipped pairs are exactly the completion-order results. -/
theorem batchPairs_map_snd {α : Type} (extract : String → Except String α) (force : Bool)
    (cache : String → Option α) (stats : ProcessingStats) (docs : List (String × String))
    (π : List Nat)
    (hπ : π.Perm (List.range (batchProbe force cache stats docs).2.1.length)) :
    (batchPairs extract force cache stats docs π).map Prod.snd =
      completionResults extract (batchProbe force cache stats docs).2.1 π := by
  unfold batchPairs
  apply List.map_snd_zip
  rw [completionResults_length extract _ π hπ, List.length_map]

/-- Number of zipped pairs under a valid completion order. -/
theorem batchPairs_length {α : Type} (extract : String → Except String α) (force : Bool)
    (cache : String → Option α) (stats : ProcessingStats) (docs : List (String × String))
    (π : List Nat)
    (hπ : π.Perm (List.range (batchProbe force cache stats docs).2.1.length)) :
    (batchPairs extract force cache stats docs π).length =
      (batchProbe force cache stats docs).2.1.length := by
  unfold batchPairs
  rw [List.length_zip, completionResults_length extract _ π hπ, List.length_map,
    min_self]

/-- Counting a predicate and its complement partitions a list's length. -/
theorem countP_add_countP_not {β : Type} (l : List β) (p : β → Bool) :
    l.countP p + l.countP (fun a => !(p a)) = l.length := by
  induction l with
  | nil => simp
  | cons x xs ih =>
    rcases h : p x with _ | _ <;>
      simp [List.countP_cons, h] <;> omega

/-- When stamping and saving always succeed, a pair contributes an artifact
exactly when its outcome is a success. -/
theorem mergeOutcomeArtifact_isSome {α : Type} (stamp : α → String → Except String α)
    (hst : ∀ a i, exceptOk (stamp a i) = true) (p : String × Except String α) :
    (mergeOutcomeArtifact stamp p).isSome = exceptOk p.2 := by
  rcases hout : p.2 with e | result
  · simp [mergeOutcomeArtifact, exceptOk, hout]
  · have := hst result p.1
    rcases hstp : stamp result p.1 with e | stamped
    · rw [hstp] at this; simp [exceptOk] at this
    · simp [mergeOutcomeArtifact, exceptOk, hout, hstp]

/-- When stamping and saving always succeed, a pair's error records are one
record carrying the outcome's exception message, or nothing on success. -/
theorem pairErrors_eq {α : Type} (stamp : α → String → Except String α)
    (save : String → α → Option String)
    (hst : ∀ a i, exceptOk (stamp a i) = true) (hsv : ∀ i a, save i a = none)
    (p : String × Except String α) :
    pairErrors stamp save p = match p.2 with
      | .error e => [(p.1, e)]
      | .ok _ => [] := by
  rcases hout : p.2 with e | result
  · simp [pairErrors, hout]
  · have := hst result p.1
    rcases hstp : stamp result p.1 with e | stamped
    · rw [hstp] at this; simp [exceptOk] at this
    · simp [pairErrors, hout, hstp, hsv]

/-- Number of stamped artifacts = number of success outcomes, when stamping
always succeeds. -/
theorem filterMap_mergeOutcome_length {α : Type} (stamp : α → String → Except String α)
    (hst : ∀ a i, exceptOk (stamp a i) = true) (pairs : List (String × Except String α)) :
    (pairs.filterMap (mergeOutcomeArtifact stamp)).length =
      pairs.countP (fun p => exceptOk p.2) := by
  rw [List.length_filterMap_eq_countP]
  apply List.countP_congr
  intro p _
  rw [mergeOutcomeArtifact_isSome stamp hst p]

/-- Number of error records = number of exception outcomes, when stamping and
saving always succeed. -/
theorem flatMap_pairErrors_length {α : Type} (stamp : α → String → Except String α)
    (save : String → α → Option String)
    (hst : ∀ a i, exceptOk (stamp a i) = true) (hsv : ∀ i a, save i a = none)
    (pairs : List (String × Except String α)) :
    (pairs.flatMap (pairErrors stamp save)).length =
      pairs.countP (fun p => !(exceptOk p.2)) := by
  induction pairs with
  | nil => simp
  | cons p ps ih =>
    rw [List.flatMap_cons, List.length_append, ih, List.countP_cons,
      pairErrors_eq stamp save hst hsv p]
    rcases hout : p.2 with e | result <;> simp [exceptOk, hout] <;> omega

/-- When stamping and saving always succeed, the error-record list is the
failing pairs' `(id, exception-message)` records, in order. -/
theorem flatMap_pairErrors_eq {α : Type} (stamp : α → String → Except String α)
    (save : String → α → Option String)
    (hst : ∀ a i, exceptOk (stamp a i) = true) (hsv : ∀ i a, save i a = none)
    (pairs : List (String × Except String α)) :
    pairs.flatMap (pairErrors stamp save) =
      (pairs.filter (fun p => !(exceptOk p.2))).map
        (fun p => (p.1, match p.2 with | .error e => e | .ok _ => "")) := by
  induction pairs with
  | nil => simp
  | cons p ps ih =>
    rw [List.flatMap_cons, ih, pairErrors_eq stamp save hst hsv p, List.filter_cons]
    rcases hout : p.2 with e | result <;> simp [exceptOk, hout]

/-- Closed form of the probe phase when `force` is off. -/
theorem batchProbe_false_eq {α : Type} (cache : String → Option α)
    (stats : ProcessingStats) (docs : List (String × String)) :
    batchProbe false cache stats docs =
      (docs.filterMap (fun d => cache d.1),
       docs.filter (fun d => (cache d.1).isNone),
       { stats with cache_hits :=
           stats.cache_hits + (docs.filterMap (fun d => cache d.1)).length }) := by
  simp [batchProbe, cacheProbe, cacheProbe_spec]

/-- The probe phase splits the input documents between hits and remaining. -/
theorem batchProbe_partition {α : Type} (force : Bool) (cache : String → Option α)
    (stats : ProcessingStats) (docs : List (String × String)) :
    (batchProbe force cache stats docs).1.length +
      (batchProbe force cache stats docs).2.1.length = docs.length := by
  cases force
  · rw [batchProbe_false_eq]
    have h1 : (docs.filterMap (fun d => cache d.1)).length =
        docs.countP (fun d => (cache d.1).isSome) :=
      List.length_filterMap_eq_countP _ _
    have h2 : (docs.filter (fun d => (cache d.1).isNone)).length =
        docs.countP (fun d => (cache d.1).isNone) :=
      (List.countP_eq_length_filter _ _).symm
    have h3 : docs.countP (fun d => (cache d.1).isNone) =
        docs.countP (fun d => !((cache d.1).isSome)) := by
      apply List.countP_congr
      intro d _
      rcases cache d.1 with _ | a <;> simp
    simp only [h1, h2, h3]
    exact countP_add_countP_not docs _
  · simp [batchProbe]

/-- The probe phase only advances the cache-hit counter. -/
theorem batchProbe_stats {α : Type} (force : Bool) (cache : String → Option α)
    (stats : ProcessingStats) (docs : List (String × String)) :
    (batchProbe force cache stats docs).2.2 =
      { stats with cache_hits :=
          stats.cache_hits + (batchProbe force cache stats docs).1.length } := by
  cases force
  · rw [batchProbe_false_eq]
  · simp [batchProbe]

/-- Failing pairs are exactly the failing completion-order outcomes, which in
turn count the failing submitted tasks. -/
theorem batchPairs_countP_fail {α : Type} (extract : String → Except String α)
    (force : Bool) (cache : String → Option α) (stats : ProcessingStats)
    (docs : List (String × String)) (π : List Nat)
    (hπ : π.Perm (List.range (batchProbe force cache stats docs).2.1.length)) :
    (batchPairs extract force cache stats docs π).countP (fun p => !(exceptOk p.2)) =
      (taskOutcomes extract (batchProbe force cache stats docs).2.1).countP
        (fun o => !(exceptOk o)) := by
  have h1 : (batchPairs extract force cache stats docs π).countP (fun p => !(exceptOk p.2)) =
      ((batchPairs extract force cache stats docs π).map Prod.snd).countP
        (fun o => !(exceptOk o)) := by
    rw [List.countP_map]
    rfl
  rw [h1, batchPairs_map_snd extract force cache stats docs π hπ]
  exact (completionResults_perm extract _ π hπ).countP_eq _

/-- Aggregate accounting of one batch call, for stamping and saving that always
succeed: the returned artifacts plus the recorded extraction failures account
for every input document exactly once, the error counter advances by exactly
the number of failures, and the error log gains exactly one `(id, message)`
record per failure, in order. -/
theorem batch_accounting {α : Type} (extract : String → Except String α)
    (stamp : α → String → Except String α) (save : String → α → Option String)
    (force : Bool) (cache : String → Option α) (stats : ProcessingStats)
    (docs : List (String × String)) (π : List Nat)
    (hπ : π.Perm (List.range (batchProbe force cache stats docs).2.1.length))
    (hst : ∀ a i, exceptOk (stamp a i) = true) (hsv : ∀ i a, save i a = none) :
    (abatch_analyze_documents extract stamp save force cache stats docs π).analyzed_docs.length
        + (batchPairs extract force cache stats docs π).countP (fun p => !(exceptOk p.2))
      = docs.length ∧
    (abatch_analyze_documents extract stamp save force cache stats docs π).stats.errors
      = stats.errors
        + (batchPairs extract force cache stats docs π).countP (fun p => !(exceptOk p.2)) ∧
    (abatch_analyze_documents extract stamp save force cache stats docs π).stats.error_details
      = stats.error_details
        ++ ((batchPairs extract force cache stats docs π).filter (fun p => !(exceptOk p.2))).map
            (fun p => (p.1, match p.2 with | .error e => e | .ok _ => "")) := by
  set pairs := batchPairs extract force cache stats docs π with hpairs
  have hs := batchProbe_stats force cache stats docs
  refine ⟨?_, ?_, ?_⟩
  · have ha := mergeFold_analyzed stamp save pairs
      ⟨(batchProbe force cache stats docs).1, cache, (batchProbe force cache stats docs).2.2⟩
    have hlen : (abatch_analyze_documents extract stamp save force cache stats docs π).analyzed_docs.length
        = (batchProbe force cache stats docs).1.length
          + pairs.countP (fun p => exceptOk p.2) := by
      show ((pairs.foldl (mergeStep stamp save) _).analyzed_docs).length = _
      rw [ha, List.length_append, filterMap_mergeOutcome_length stamp hst]
    rw [hlen]
    have hcc := countP_add_countP_not pairs (fun p => exceptOk p.2)
    have hplen := batchPairs_length extract force cache stats docs π hπ
    have hpart := batchProbe_partition force cache stats docs
    rw [hpairs] at *
    omega
  · have he := mergeFold_errors stamp save pairs
      ⟨(batchProbe force cache stats docs).1, cache, (batchProbe force cache stats docs).2.2⟩
    show (pairs.foldl (mergeStep stamp save) _).stats.errors = _
    rw [he, flatMap_pairErrors_length stamp save hst hsv, hs]
  · have he := mergeFold_error_details stamp save pairs
      ⟨(batchProbe force cache stats docs).1, cache, (batchProbe force cache stats docs).2.2⟩
    show (pairs.foldl (mergeStep stamp save) _).stats.error_details = _
    rw [he, flatMap_pairErrors_eq stamp save hst hsv, hs]

/-! ## Concrete collaborator instances used by witnesses and counterexamples -/

/-- Concrete extraction call: always succeeds, the artifact records the
content's length. -/
def wExtract : String → Except String Nat := fun c => Except.ok c.length

/-- Concrete extraction call: raises `"boom"` on the content `"bad"`,
succeeds otherwise. -/
def wExtractFail : String → Except String Nat :=
  fun c => if c = "bad" then Except.error "boom" else Except.ok c.length

/-- Concrete stamping step: always succeeds, artifact unchanged. -/
def wStamp : Nat → String → Except String Nat := fun a _ => Except.ok a

/-- Concrete stamping step: always raises (e.g. a pydantic validation error
in `self.model_cls(**result_dict)`). -/
def wStampFail : Nat → String → Except String Nat :=
  fun _ _ => Except.error "validation error"

/-- Concrete KV-store write: always succeeds. -/
def wSaveOk : String → Nat → Option String := fun _ _ => none

/-- Concrete KV-store write: always raises. -/
def wSaveFail : String → Nat → Option String := fun _ _ => some "disk full"

/-- Concrete extraction call over id-stamped artifacts `(value, document_id)`:
the value records the content's length, the id field starts empty. -/
def wExtractPair : String → Except String (Nat × String) :=
  fun c => Except.ok (c.length, "")

/-- Concrete stamping step over id-stamped artifacts: write the document id
into the artifact's id field (the `result_dict["document_id"] = doc_id` step). -/
def wStampPair : Nat × String → String → Except String (Nat × String) :=
  fun a i => Except.ok (a.1, i)

/-- Concrete KV-store write over id-stamped artifacts: always succeeds. -/
def wSavePair : String → Nat × String → Option String := fun _ _ => none

/-! ## Claim C1 — attribution of outcomes to documents -/

/-- C1: the claim is false of the code: results are collected in completion
order (`asyncio.as_completed`) but zipped against `remaining_ids` in
submission order, so when the second task (content `"yy"`, length 2) completes
before the first (content `"x"`, length 1) — completion order `[1, 0]`, a
permutation of the two tasks — the artifact extracted from `"yy"` is stamped
and recorded under `"d1"`, the id whose content was `"x"`, and vice versa; the
corrupted attribution is also persisted to the KV store. -/
theorem C1_misattribution :
    ([1, 0] : List Nat).Perm (List.range 2) ∧
    wExtractPair "x" = Except.ok (1, "") ∧
    wExtractPair "yy" = Except.ok (2, "") ∧
    (abatch_analyze_documents wExtractPair wStampPair wSavePair true (fun _ => none)
        ProcessingStats.init [("d1", "x"), ("d2", "yy")] [1, 0]).analyzed_docs =
      [(2, "d1"), (1, "d2")] ∧
    (abatch_analyze_documents wExtractPair wStampPair wSavePair true (fun _ => none)
        ProcessingStats.init [("d1", "x"), ("d2", "yy")] [1, 0]).cache "d1" =
      some (2, "d1") :=
  ⟨by decide, rfl, rfl, rfl, rfl⟩

/-! ## Claim C2 — every input id yields exactly one returned result -/

/-- C2: the claim as stated is false: a document whose extraction call raises
yields no entry at all in the returned `analyzed_docs` collection — here a
one-document batch returns the empty list — the failure being recorded only in
the stats error log. -/
theorem C2_counterexample :
    (abatch_analyze_documents wExtractFail wStamp wSaveOk true (fun _ => none)
        ProcessingStats.init [("d1", "bad")] [0]).analyzed_docs = ([] : List Nat) ∧
    (abatch_analyze_documents wExtractFail wStamp wSaveOk true (fun _ => none)
        ProcessingStats.init [("d1", "bad")] [0]).stats.errors = 1 ∧
    (abatch_analyze_documents wExtractFail wStamp wSaveOk true (fun _ => none)
        ProcessingStats.init [("d1", "bad")] [0]).stats.error_details = [("d1", "boom")] :=
  ⟨rfl, rfl, rfl⟩

/-- C2 (amended): when stamping and cache writes succeed, every input document
is accounted for exactly once — as one entry of the returned collection (cache
hit or computed artifact) or as one failure: returned count plus failure count
equals the input count, the error counter advances by exactly the failure
count, and the error log gains exactly one `(attributed-id, message)` record
per failure, in order; failed documents are thus visible in the error report
but absent from the returned collection. -/
theorem C2_every_doc_accounted {α : Type} (extract : String → Except String α)
    (stamp : α → String → Except String α) (save : String → α → Option String)
    (force : Bool) (cache : String → Option α) (stats : ProcessingStats)
    (docs : List (String × String)) (π : List Nat)
    (hπ : π.Perm (List.range (batchProbe force cache stats docs).2.1.length))
    (hst : ∀ a i, exceptOk (stamp a i) = true) (hsv : ∀ i a, save i a = none) :
    (abatch_analyze_documents extract stamp save force cache stats docs π).analyzed_docs.length
        + (batchPairs extract force cache stats docs π).countP (fun p => !(exceptOk p.2))
      = docs.length ∧
    (abatch_analyze_documents extract stamp save force cache stats docs π).stats.errors
      = stats.errors
        + (batchPairs extract force cache stats docs π).countP (fun p => !(exceptOk p.2)) ∧
    (abatch_analyze_documents extract stamp save force cache stats docs π).stats.error_details
      = stats.error_details
        ++ ((batchPairs extract force cache stats docs π).filter (fun p => !(exceptOk p.2))).map
            (fun p => (p.1, match p.2 with | .error e => e | .ok _ => "")) :=
  batch_accounting extract stamp save force cache stats docs π hπ hst hsv

/-- C2 witness: the amended accounting at a concrete three-document batch with
one failing extraction and completion order `[2, 0, 1]`. -/
theorem C2_every_doc_accounted_witness :
    (abatch_analyze_documents wExtractFail wStamp wSaveOk false (fun _ => none)
        ProcessingStats.init [("a", "ta"), ("b", "bad"), ("c", "tc")] [2, 0, 1]).analyzed_docs.length
        + (batchPairs wExtractFail false (fun _ => none) ProcessingStats.init
            [("a", "ta"), ("b", "bad"), ("c", "tc")] [2, 0, 1]).countP (fun p => !(exceptOk p.2))
      = 3 ∧
    (abatch_analyze_documents wExtractFail wStamp wSaveOk false (fun _ => none)
        ProcessingStats.init [("a", "ta"), ("b", "bad"), ("c", "tc")] [2, 0, 1]).stats.errors
      = ProcessingStats.init.errors
        + (batchPairs wExtractFail false (fun _ => none) ProcessingStats.init
            [("a", "ta"), ("b", "bad"), ("c", "tc")] [2, 0, 1]).countP (fun p => !(exceptOk p.2)) ∧
    (abatch_analyze_documents wExtractFail wStamp wSaveOk false (fun _ => none)
        ProcessingStats.init [("a", "ta"), ("b", "bad"), ("c", "tc")] [2, 0, 1]).stats.error_details
      = ProcessingStats.init.error_details
        ++ ((batchPairs wExtractFail false (fun _ => none) ProcessingStats.init
              [("a", "ta"), ("b", "bad"), ("c", "tc")] [2, 0, 1]).filter
                (fun p => !(exceptOk p.2))).map
            (fun p => (p.1, match p.2 with | .error e => e | .ok _ => "")) :=
  C2_every_doc_accounted wExtractFail wStamp wSaveOk false (fun _ => none)
    ProcessingStats.init [("a", "ta"), ("b", "bad"), ("c", "tc")] [2, 0, 1]
    (by decide) (fun _ _ => rfl) (fun _ _ => rfl)

/-! ## Claim C5 — partial-failure isolation -/

/-- C5: in any batch (any cache, any valid completion order) where exactly one
submitted extraction task raises and stamping and cache writes succeed, the
batch call returns an artifact for every other document (returned count + 1 =
input count), records exactly one error and appends exactly one error-log
entry; no failure aborts the batch (the embedding is a total function, and the
exception of line 174 is caught and recorded). -/
theorem C5_partial_failure_isolation {α : Type} (extract : String → Except String α)
    (stamp : α → String → Except String α) (save : String → α → Option String)
    (force : Bool) (cache : String → Option α) (stats : ProcessingStats)
    (docs : List (String × String)) (π : List Nat)
    (hπ : π.Perm (List.range (batchProbe force cache stats docs).2.1.length))
    (hfail : (taskOutcomes extract (batchProbe force cache stats docs).2.1).countP
        (fun o => !(exceptOk o)) = 1)
    (hst : ∀ a i, exceptOk (stamp a i) = true) (hsv : ∀ i a, save i a = none) :
    (abatch_analyze_documents extract stamp save force cache stats docs π).analyzed_docs.length
        + 1 = docs.length ∧
    (abatch_analyze_documents extract stamp save force cache stats docs π).stats.errors
      = stats.errors + 1 ∧
    (abatch_analyze_documents extract stamp save force cache stats docs π).stats.error_details.length
      = stats.error_details.length + 1 := by
  have hc := batchPairs_countP_fail extract force cache stats docs π hπ
  have ha := batch_accounting extract stamp save force cache stats docs π hπ hst hsv
  rw [hfail] at hc
  refine ⟨?_, ?_, ?_⟩
  · have := ha.1
    rw [hc] at this
    exact this
  · rw [ha.2.1, hc]
  · rw [ha.2.2, List.length_append, List.length_map,
      ← List.countP_eq_length_filter, hc]

/-- C5 witness: the theorem at the spec's own scenario — three documents with
an empty cache and the middle one's extraction raising, completion order
`[2, 0, 1]`. -/
theorem C5_partial_failure_isolation_witness :
    (abatch_analyze_documents wExtractFail wStamp wSaveOk false (fun _ => none)
        ProcessingStats.init [("a", "ta"), ("b", "bad"), ("c", "tc")] [2, 0, 1]).analyzed_docs.length
        + 1 = 3 ∧
    (abatch_analyze_documents wExtractFail wStamp wSaveOk false (fun _ => none)
        ProcessingStats.init [("a", "ta"), ("b", "bad"), ("c", "tc")] [2, 0, 1]).stats.errors
      = ProcessingStats.init.errors + 1 ∧
    (abatch_analyze_documents wExtractFail wStamp wSaveOk false (fun _ => none)
        ProcessingStats.init [("a", "ta"), ("b", "bad"), ("c", "tc")] [2, 0, 1]).stats.error_details.length
      = ProcessingStats.init.error_details.length + 1 :=
  C5_partial_failure_isolation wExtractFail wStamp wSaveOk false (fun _ => none)
    ProcessingStats.init [("a", "ta"), ("b", "bad"), ("c", "tc")] [2, 0, 1]
    (by decide) (by decide) (fun _ _ => rfl) (fun _ _ => rfl)

/-! ## Claim C6 — cache-write failure is not a processing failure -/

/-- C6: any pair of the batch whose extraction and stamping succeed but whose
KV-store write raises still contributes its stamped artifact to the returned
collection — the append of line 192 precedes the save of line 198 — while the
save failure is recorded in the error log by the `except` of lines 200–203
instead of propagating (the embedding recovers, never rethrows). -/
theorem C6_write_failure_artifact_kept {α : Type} (extract : String → Except String α)
    (stamp : α → String → Except String α) (save : String → α → Option String)
    (force : Bool) (cache : String → Option α) (stats : ProcessingStats)
    (docs : List (String × String)) (π : List Nat)
    (p : String × Except String α) (a s : α) (e : String)
    (hp : p ∈ batchPairs extract force cache stats docs π)
    (hout : p.2 = Except.ok a) (hstp : stamp a p.1 = Except.ok s)
    (hsave : save p.1 s = some e) :
    s ∈ (abatch_analyze_documents extract stamp save force cache stats docs π).analyzed_docs ∧
    (p.1, e) ∈ (abatch_analyze_documents extract stamp save force cache stats docs π).stats.error_details := by
  have hart : mergeOutcomeArtifact stamp p = some s := by
    simp [mergeOutcomeArtifact, hout, hstp]
  have herr : pairErrors stamp save p = [(p.1, e)] := by
    simp [pairErrors, hout, hstp, hsave]
  constructor
  · have ha := mergeFold_analyzed stamp save (batchPairs extract force cache stats docs π)
      ⟨(batchProbe force cache stats docs).1, cache, (batchProbe force cache stats docs).2.2⟩
    show s ∈ ((batchPairs extract force cache stats docs π).foldl (mergeStep stamp save) _).analyzed_docs
    rw [ha]
    exact List.mem_append_right _ (List.mem_filterMap.mpr ⟨p, hp, hart⟩)
  · have he := mergeFold_error_details stamp save (batchPairs extract force cache stats docs π)
      ⟨(batchProbe force cache stats docs).1, cache, (batchProbe force cache stats docs).2.2⟩
    show (p.1, e) ∈ ((batchPairs extract force cache stats docs π).foldl (mergeStep stamp save) _).stats.error_details
    rw [he]
    exact List.mem_append_right _
      (List.mem_flatMap.mpr ⟨p, hp, by rw [herr]; exact List.mem_singleton.mpr rfl⟩)

/-- C6 witness: one document, successful extraction, raising cache write — its
artifact (the content length 1) is returned and the write failure is logged. -/
theorem C6_write_failure_artifact_kept_witness :
    (1 : Nat) ∈ (abatch_analyze_documents wExtract wStamp wSaveFail true (fun _ => none)
        ProcessingStats.init [("d1", "c")] [0]).analyzed_docs ∧
    ("d1", "disk full") ∈ (abatch_analyze_documents wExtract wStamp wSaveFail true (fun _ => none)
        ProcessingStats.init [("d1", "c")] [0]).stats.error_details :=
  C6_write_failure_artifact_kept wExtract wStamp wSaveFail true (fun _ => none)
    ProcessingStats.init [("d1", "c")] [0] ("d1", Except.ok 1) 1 1 "disk full"
    (by rw [show batchPairs wExtract true (fun _ => none) ProcessingStats.init
        [("d1", "c")] [0] = [("d1", Except.ok 1)] from rfl]
        exact List.mem_singleton.mpr rfl)
    rfl rfl rfl

/-! ## Claim C10 — double counting on stamping-or-persistence failure -/

/-- C10: the claim as stated is false: when the *stamping* step itself raises
(`self.model_cls(**result_dict)` on line 190), the artifact is never appended
and the processed counter is never incremented — only the error is recorded —
so a document whose "stamping-or-persistence step raises" is not always kept
in the returned collection: here a one-document batch with successful
extraction but raising stamping returns the empty list with
`files_processed = 0`. -/
theorem C10_counterexample :
    wExtract "c" = Except.ok 1 ∧
    (abatch_analyze_documents wExtract wStampFail wSaveOk true (fun _ => none)
        ProcessingStats.init [("d1", "c")] [0]).analyzed_docs = ([] : List Nat) ∧
    (abatch_analyze_documents wExtract wStampFail wSaveOk true (fun _ => none)
        ProcessingStats.init [("d1", "c")] [0]).stats.files_processed = 0 ∧
    (abatch_analyze_documents wExtract wStampFail wSaveOk true (fun _ => none)
        ProcessingStats.init [("d1", "c")] [0]).stats.errors = 1 :=
  ⟨rfl, rfl, rfl, rfl⟩

/-- C10 (amended): for a document whose extraction *and stamping* succeed but
whose persistence raises, the batch call both keeps the stamped artifact in
the returned collection with the processed counter strictly incremented and
records an error for the same attributed id — so such a document is counted
simultaneously as processed and as an error, and
`processed + cache-hits + errors` can exceed the number of input documents
(see the witness); when the stamping itself raises, the artifact is not kept
and only the error is recorded. -/
theorem C10_save_failure_double_count {α : Type} (extract : String → Except String α)
    (stamp : α → String → Except String α) (save : String → α → Option String)
    (force : Bool) (cache : String → Option α) (stats : ProcessingStats)
    (docs : List (String × String)) (π : List Nat)
    (p : String × Except String α) (a s : α) (e : String)
    (hp : p ∈ batchPairs extract force cache stats docs π)
    (hout : p.2 = Except.ok a) (hstp : stamp a p.1 = Except.ok s)
    (hsave : save p.1 s = some e) :
    s ∈ (abatch_analyze_documents extract stamp save force cache stats docs π).analyzed_docs ∧
    (p.1, e) ∈ (abatch_analyze_documents extract stamp save force cache stats docs π).stats.error_details ∧
    stats.files_processed
      < (abatch_analyze_documents extract stamp save force cache stats docs π).stats.files_processed ∧
    stats.errors
      < (abatch_analyze_documents extract stamp save force cache stats docs π).stats.errors := by
  have hart : mergeOutcomeArtifact stamp p = some s := by
    simp [mergeOutcomeArtifact, hout, hstp]
  have herr : pairErrors stamp save p = [(p.1, e)] := by
    simp [pairErrors, hout, hstp, hsave]
  have hs := batchProbe_stats force cache stats docs
  have hmem : s ∈ (batchPairs extract force cache stats docs π).filterMap
      (mergeOutcomeArtifact stamp) :=
    List.mem_filterMap.mpr ⟨p, hp, hart⟩
  have hememb : (p.1, e) ∈ (batchPairs extract force cache stats docs π).flatMap
      (pairErrors stamp save) :=
    List.mem_flatMap.mpr ⟨p, hp, by rw [herr]; exact List.mem_singleton.mpr rfl⟩
  have ha := mergeFold_analyzed stamp save (batchPairs extract force cache stats docs π)
    ⟨(batchProbe force cache stats docs).1, cache, (batchProbe force cache stats docs).2.2⟩
  have hd := mergeFold_error_details stamp save (batchPairs extract force cache stats docs π)
    ⟨(batchProbe force cache stats docs).1, cache, (batchProbe force cache stats docs).2.2⟩
  have hfp := mergeFold_files_processed stamp save (batchPairs extract force cache stats docs π)
    ⟨(batchProbe force cache stats docs).1, cache, (batchProbe force cache stats docs).2.2⟩
  have her := mergeFold_errors stamp save (batchPairs extract force cache stats docs π)
    ⟨(batchProbe force cache stats docs).1, cache, (batchProbe force cache stats docs).2.2⟩
  refine ⟨?_, ?_, ?_, ?_⟩
  · show s ∈ ((batchPairs extract force cache stats docs π).foldl (mergeStep stamp save) _).analyzed_docs
    rw [ha]
    exact List.mem_append_right _ hmem
  · show (p.1, e) ∈ ((batchPairs extract force cache stats docs π).foldl (mergeStep stamp save) _).stats.error_details
    rw [hd]
    exact List.mem_append_right _ hememb
  · show stats.files_processed
      < ((batchPairs extract force cache stats docs π).foldl (mergeStep stamp save) _).stats.files_processed
    rw [hfp, hs]
    have := List.length_pos_of_mem hmem
    simp only []
    omega
  · show stats.errors
      < ((batchPairs extract force cache stats docs π).foldl (mergeStep stamp save) _).stats.errors
    rw [her, hs]
    have := List.length_pos_of_mem hememb
    simp only []
    omega

/-- C10 witness: one fully-cached-free document with raising persistence — the
amended theorem applies, and concretely `processed + cache_hits + errors = 2`
exceeds the single input document. -/
theorem C10_save_failure_double_count_witness :
    ((1 : Nat) ∈ (abatch_analyze_documents wExtract wStamp wSaveFail true (fun _ => none)
        ProcessingStats.init [("d1", "c")] [0]).analyzed_docs ∧
     ("d1", "disk full") ∈ (abatch_analyze_documents wExtract wStamp wSaveFail true (fun _ => none)
        ProcessingStats.init [("d1", "c")] [0]).stats.error_details ∧
     ProcessingStats.init.files_processed
       < (abatch_analyze_documents wExtract wStamp wSaveFail true (fun _ => none)
          ProcessingStats.init [("d1", "c")] [0]).stats.files_processed ∧
     ProcessingStats.init.errors
       < (abatch_analyze_documents wExtract wStamp wSaveFail true (fun _ => none)
          ProcessingStats.init [("d1", "c")] [0]).stats.errors) ∧
    (abatch_analyze_documents wExtract wStamp wSaveFail true (fun _ => none)
        ProcessingStats.init [("d1", "c")] [0]).stats.files_processed
      + (abatch_analyze_documents wExtract wStamp wSaveFail true (fun _ => none)
          ProcessingStats.init [("d1", "c")] [0]).stats.cache_hits
      + (abatch_analyze_documents wExtract wStamp wSaveFail true (fun _ => none)
          ProcessingStats.init [("d1", "c")] [0]).stats.errors = 2 :=
  ⟨C10_save_failure_double_count wExtract wStamp wSaveFail true (fun _ => none)
      ProcessingStats.init [("d1", "c")] [0] ("d1", Except.ok 1) 1 1 "disk full"
      (by rw [show batchPairs wExtract true (fun _ => none) ProcessingStats.init
          [("d1", "c")] [0] = [("d1", Except.ok 1)] from rfl]
          exact List.mem_singleton.mpr rfl)
      rfl rfl rfl,
   rfl⟩

/-! ## Claim C8 — single-document convenience wrapper -/

/-- C8: `analyze_document` returns the first artifact of the underlying batch
call whenever that call yields at least one result, and raises the processing
error `ValueError(f"Failed to process document: {document_id}")` exactly when
the batch call yields zero results for the document. -/
theorem C8_analyze_document_first_or_error {α : Type} (extract : String → Except String α)
    (stamp : α → String → Except String α) (save : String → α → Option String)
    (force : Bool) (cache : String → Option α) (stats : ProcessingStats)
    (document_id markdown : String) (π : List Nat) :
    (∀ (a : α) (rest : List α),
      (abatch_analyze_documents extract stamp save force cache stats
          [(document_id, markdown)] π).analyzed_docs = a :: rest →
      analyze_document extract stamp save force cache stats document_id markdown π
        = Except.ok a) ∧
    ((abatch_analyze_documents extract stamp save force cache stats
          [(document_id, markdown)] π).analyzed_docs = [] ↔
      analyze_document extract stamp save force cache stats document_id markdown π
        = Except.error ("Failed to process document: " ++ document_id)) := by
  refine ⟨?_, ?_, ?_⟩
  · intro a rest h
    unfold analyze_document
    rw [h]
  · intro h
    unfold analyze_document
    rw [h]
  · intro h
    unfold analyze_document at h
    rcases hl : (abatch_analyze_documents extract stamp save force cache stats
        [(document_id, markdown)] π).analyzed_docs with _ | ⟨a, rest⟩
    · rfl
    · rw [hl] at h
      exact absurd h (by simp)

/-- C8 witness: the wrapper applied to a failing and to a succeeding
single-document batch. -/
theorem C8_analyze_document_first_or_error_witness :
    analyze_document wExtractFail wStamp wSaveOk true (fun _ => none)
        ProcessingStats.init "d1" "bad" [0]
      = Except.error ("Failed to process document: " ++ "d1") ∧
    analyze_document wExtractFail wStamp wSaveOk true (fun _ => none)
        ProcessingStats.init "d1" "ok" [0]
      = Except.ok 2 :=
  ⟨(C8_analyze_document_first_or_error wExtractFail wStamp wSaveOk true (fun _ => none)
      ProcessingStats.init "d1" "bad" [0]).2.mp rfl,
   (C8_analyze_document_first_or_error wExtractFail wStamp wSaveOk true (fun _ => none)
      ProcessingStats.init "d1" "ok" [0]).1 2 [] rfl⟩

/-! ## Claim C9 — bounded error report, full count retained, monotone counters -/

/-- Invariant of the stats mutations: the error counter counts the `add_error`
calls and the error log lists their records in order. -/
theorem applyStatsOps_spec (ops : List StatsOp) :
    ∀ s : ProcessingStats,
      (applyStatsOps s ops).errors
        = s.errors + ops.countP (fun op => match op with
            | .addError _ _ => true | _ => false) ∧
      (applyStatsOps s ops).error_details
        = s.error_details ++ ops.filterMap (fun op => match op with
            | .addError f e => some (f, e) | _ => none) := by
  induction ops with
  | nil => intro s; simp [applyStatsOps]
  | cons op rest ih =>
    intro s
    have h := ih (applyStatsOp s op)
    have hstep : applyStatsOps s (op :: rest) = applyStatsOps (applyStatsOp s op) rest := rfl
    rw [hstep]
    cases op with
    | addError f e =>
      refine ⟨?_, ?_⟩
      · rw [h.1, List.countP_cons]
        simp [applyStatsOp, ProcessingStats.add_error]
        omega
      · rw [h.2, List.filterMap_cons]
        simp [applyStatsOp, ProcessingStats.add_error]
    | cacheHit =>
      refine ⟨?_, ?_⟩
      · rw [h.1, List.countP_cons]
        simp [applyStatsOp]
      · rw [h.2, List.filterMap_cons]
        simp [applyStatsOp]
    | fileProcessed =>
      refine ⟨?_, ?_⟩
      · rw [h.1, List.countP_cons]
        simp [applyStatsOp]
      · rw [h.2, List.filterMap_cons]
        simp [applyStatsOp]

/-- C9: after any sequence of recorded mutations starting from a fresh
`ProcessingStats`, the error-detail view shows the `min 10 total` most recent
`(document-id, error-message)` records as a suffix (hence in recording order)
of the full log, the error counter equals the number of all recorded failures
— also those no longer displayed — and no mutation ever decreases any
counter. -/
theorem C9_bounded_error_report (ops : List StatsOp) :
    (applyStatsOps ProcessingStats.init ops).create_error_table_rows.length
      = min 10 (applyStatsOps ProcessingStats.init ops).error_details.length ∧
    (applyStatsOps ProcessingStats.init ops).create_error_table_rows.IsSuffix
      (applyStatsOps ProcessingStats.init ops).error_details ∧
    (applyStatsOps ProcessingStats.init ops).errors
      = ops.countP (fun op => match op with | .addError _ _ => true | _ => false) ∧
    (applyStatsOps ProcessingStats.init ops).errors
      = (applyStatsOps ProcessingStats.init ops).error_details.length ∧
    ∀ (t : ProcessingStats) (op : StatsOp),
      t.files_discovered ≤ (applyStatsOp t op).files_discovered ∧
      t.files_processed ≤ (applyStatsOp t op).files_processed ∧
      t.cache_hits ≤ (applyStatsOp t op).cache_hits ∧
      t.errors ≤ (applyStatsOp t op).errors := by
  obtain ⟨h1, h2⟩ := applyStatsOps_spec ops ProcessingStats.init
  refine ⟨?_, ?_, ?_, ?_, ?_⟩
  · rw [ProcessingStats.create_error_table_rows, List.length_drop]
    omega
  · exact List.drop_suffix _ _
  · rw [h1]
    simp [ProcessingStats.init]
  · rw [h1, h2]
    have : (ops.filterMap (fun op => match op with
        | .addError f e => some (f, e) | _ => none)).length
        = ops.countP (fun op => match op with
            | .addError _ _ => true | _ => false) := by
      rw [List.length_filterMap_eq_countP]
      apply List.countP_congr
      intro op _
      cases op <;> simp
    simp [ProcessingStats.init, this]
  · intro t op
    cases op <;> simp [applyStatsOp, ProcessingStats.add_error]

/-! ## Claim C7 — force-recompute semantics -/

/-- C7: with `force = true` the probe phase is skipped entirely — zero
KV-store reads, the cache-hit counter unchanged even when every document has a
cached entry — one extraction task is dispatched per input document, and every
pair whose extraction, stamping and write succeed ends with its stamped
artifact persisted in the KV store under its attributed id. -/
theorem C7_force_bypasses_cache {α : Type} (extract : String → Except String α)
    (stamp : α → String → Except String α) (save : String → α → Option String)
    (cache : String → Option α) (stats : ProcessingStats)
    (docs : List (String × String)) (π : List Nat)
    (hcached : ∀ d ∈ docs, (cache d.1).isSome = true)
    (hids : (docs.map Prod.fst).Nodup)
    (hπ : π.Perm (List.range docs.length)) :
    (abatch_analyze_documents extract stamp save true cache stats docs π).cache_reads = 0 ∧
    (abatch_analyze_documents extract stamp save true cache stats docs π).stats.cache_hits
      = stats.cache_hits ∧
    (abatch_analyze_documents extract stamp save true cache stats docs π).extract_calls
      = docs.length ∧
    ∀ p ∈ batchPairs extract true cache stats docs π, ∀ (a s : α),
      p.2 = Except.ok a → stamp a p.1 = Except.ok s → save p.1 s = none →
      (abatch_analyze_documents extract stamp save true cache stats docs π).cache p.1
        = some s := by
  refine ⟨rfl, ?_, rfl, ?_⟩
  · exact mergeFold_cache_hits stamp save _ _
  · intro p hp a s hout hstp hsv1
    have hnd : ((batchPairs extract true cache stats docs π).map Prod.fst).Nodup := by
      rw [batchPairs_map_fst extract true cache stats docs π hπ]
      exact hids
    exact mergeFold_cache_of_mem stamp save _ hnd p hp a s hout hstp hsv1 _

/-- C7 witness: a fully cached two-document batch under `force`, completion
order swapped: no read, no hit, two extraction calls, and the artifact paired
with `"d1"` persisted under `"d1"`. -/
theorem C7_force_bypasses_cache_witness :
    (abatch_analyze_documents wExtract wStamp wSaveOk true (fun _ => some 7)
        ProcessingStats.init [("d1", "x"), ("d2", "yy")] [1, 0]).cache_reads = 0 ∧
    (abatch_analyze_documents wExtract wStamp wSaveOk true (fun _ => some 7)
        ProcessingStats.init [("d1", "x"), ("d2", "yy")] [1, 0]).stats.cache_hits
      = ProcessingStats.init.cache_hits ∧
    (abatch_analyze_documents wExtract wStamp wSaveOk true (fun _ => some 7)
        ProcessingStats.init [("d1", "x"), ("d2", "yy")] [1, 0]).extract_calls = 2 ∧
    (abatch_analyze_documents wExtract wStamp wSaveOk true (fun _ => some 7)
        ProcessingStats.init [("d1", "x"), ("d2", "yy")] [1, 0]).cache "d1" = some 2 := by
  obtain ⟨h1, h2, h3, h4⟩ := C7_force_bypasses_cache wExtract wStamp wSaveOk
    (fun _ => some 7) ProcessingStats.init [("d1", "x"), ("d2", "yy")] [1, 0]
    (by decide) (by decide) (by decide)
  refine ⟨h1, h2, h3, ?_⟩
  apply h4 ("d1", Except.ok 2)
  · rw [show batchPairs wExtract true (fun _ => some 7) ProcessingStats.init
        [("d1", "x"), ("d2", "yy")] [1, 0]
      = [("d1", Except.ok 2), ("d2", Except.ok 1)] from rfl]
    exact List.mem_cons_self _ _
  · rfl
  · rfl
  · rfl

/-! ## Claim C4 — idempotence of a successful batch -/

/-- Helper: reading a store back along ids that pairwise carry the stored
artifacts reproduces, in order, exactly those artifacts. -/
theorem filterMap_cache_lockstep {α : Type} (c : String → Option α)
    (g : String × Except String α → Option α) :
    ∀ (ds : List (String × String)) (ps : List (String × Except String α)),
      ds.map Prod.fst = ps.map Prod.fst →
      (∀ p ∈ ps, ∃ s, g p = some s ∧ c p.1 = some s) →
      ds.filterMap (fun d => c d.1) = ps.filterMap g := by
  intro ds
  induction ds with
  | nil =>
    intro ps h _
    cases ps with
    | nil => rfl
    | cons q qs => simp at h
  | cons d ds ih =>
    intro ps h hall
    cases ps with
    | nil => simp at h
    | cons q qs =>
      simp only [List.map_cons, List.cons.injEq] at h
      obtain ⟨s, hg, hc⟩ := hall q (List.mem_cons_self q qs)
      have hcd : c d.1 = some s := by rw [h.1]; exact hc
      rw [List.filterMap_cons, List.filterMap_cons, hg, hcd,
        ih qs h.2 (fun p hp => hall p (List.mem_cons_of_mem q hp))]

/-- C4: idempotence of a fully successful batch. If a first `force = false`
call finds nothing cached and every extraction, stamping and cache write
succeeds, then a second `force = false` call on the same documents (with the
first call's final store and stats) returns the identical artifact list, makes
zero extraction calls, and records every document as a cache hit. -/
theorem C4_idempotence {α : Type} (extract : String → Except String α)
    (stamp : α → String → Except String α) (save : String → α → Option String)
    (cache : String → Option α) (stats : ProcessingStats)
    (docs : List (String × String)) (π : List Nat)
    (hmiss : ∀ d ∈ docs, cache d.1 = none)
    (hids : (docs.map Prod.fst).Nodup)
    (hπ : π.Perm (List.range docs.length))
    (hex : ∀ d ∈ docs, exceptOk (extract d.2) = true)
    (hst : ∀ a i, exceptOk (stamp a i) = true)
    (hsv : ∀ i a, save i a = none) :
    (abatch_analyze_documents extract stamp save false
        (abatch_analyze_documents extract stamp save false cache stats docs π).cache
        (abatch_analyze_documents extract stamp save false cache stats docs π).stats
        docs []).analyzed_docs
      = (abatch_analyze_documents extract stamp save false cache stats docs π).analyzed_docs ∧
    (abatch_analyze_documents extract stamp save false
        (abatch_analyze_documents extract stamp save false cache stats docs π).cache
        (abatch_analyze_documents extract stamp save false cache stats docs π).stats
        docs []).extract_calls = 0 ∧
    (abatch_analyze_documents extract stamp save false
        (abatch_analyze_documents extract stamp save false cache stats docs π).cache
        (abatch_analyze_documents extract stamp save false cache stats docs π).stats
        docs []).stats.cache_hits
      = (abatch_analyze_documents extract stamp save false cache stats docs π).stats.cache_hits
        + docs.length := by
  -- First-call probe phase: every document misses.
  have hhits : (batchProbe false cache stats docs).1 = [] := by
    rw [batchProbe_false_eq]
    exact List.filterMap_eq_nil_iff.mpr hmiss
  have hrem : (batchProbe false cache stats docs).2.1 = docs := by
    rw [batchProbe_false_eq]
    refine List.filter_eq_self.mpr fun d hd => ?_
    rw [hmiss d hd]
    rfl
  have hπ' : π.Perm (List.range (batchProbe false cache stats docs).2.1.length) := by
    rw [hrem]
    exact hπ
  -- The pairs of the first call: ids are the input ids, outcomes all succeed.
  have hfst : (batchPairs extract false cache stats docs π).map Prod.fst = docs.map Prod.fst := by
    rw [batchPairs_map_fst extract false cache stats docs π hπ', hrem]
  have hallok : ∀ p ∈ batchPairs extract false cache stats docs π, exceptOk p.2 = true := by
    intro p hp
    have hsnd : p.2 ∈ (batchPairs extract false cache stats docs π).map Prod.snd :=
      List.mem_map_of_mem Prod.snd hp
    rw [batchPairs_map_snd extract false cache stats docs π hπ'] at hsnd
    have htask : p.2 ∈ taskOutcomes extract (batchProbe false cache stats docs).2.1 :=
      (completionResults_perm extract _ π hπ').mem_iff.mp hsnd
    rw [hrem] at htask
    obtain ⟨d, hd, hpd⟩ := List.mem_map.mp htask
    rw [← hpd]
    exact hex d hd
  have hnd : ((batchPairs extract false cache stats docs π).map Prod.fst).Nodup := by
    rw [hfst]
    exact hids
  -- Every pair stores its stamped artifact, which is also what it returns.
  have hsucc : ∀ p ∈ batchPairs extract false cache stats docs π,
      ∃ s, mergeOutcomeArtifact stamp p = some s ∧
        (abatch_analyze_documents extract stamp save false cache stats docs π).cache p.1
          = some s := by
    intro p hp
    have hok := hallok p hp
    rcases hout : p.2 with e | a
    · rw [hout] at hok
      simp [exceptOk] at hok
    · have hstok := hst a p.1
      rcases hstp : stamp a p.1 with e | s
      · rw [hstp] at hstok
        simp [exceptOk] at hstok
      · refine ⟨s, by simp [mergeOutcomeArtifact, hout, hstp], ?_⟩
        exact mergeFold_cache_of_mem stamp save _ hnd p hp a s hout hstp (hsv p.1 s) _
  -- The first call returns exactly the stamped artifacts, one per document.
  have hret : (abatch_analyze_documents extract stamp save false cache stats docs π).analyzed_docs
      = (batchPairs extract false cache stats docs π).filterMap (mergeOutcomeArtifact stamp) := by
    show ((batchPairs extract false cache stats docs π).foldl (mergeStep stamp save)
      ⟨(batchProbe false cache stats docs).1, cache,
        (batchProbe false cache stats docs).2.2⟩).analyzed_docs = _
    rw [mergeFold_analyzed, hhits]
    rfl
  have hretlen : (abatch_analyze_documents extract stamp save false cache stats docs π).analyzed_docs.length
      = docs.length := by
    rw [hret, filterMap_mergeOutcome_length stamp hst, List.countP_eq_length.mpr hallok,
      batchPairs_length extract false cache stats docs π hπ', hrem]
  -- Second-call probe phase: every document hits with the stored artifact.
  have hfull : ∀ d ∈ docs,
      ((abatch_analyze_documents extract stamp save false cache stats docs π).cache d.1).isSome
        = true := by
    intro d hd
    have : d.1 ∈ (batchPairs extract false cache stats docs π).map Prod.fst := by
      rw [hfst]
      exact List.mem_map_of_mem Prod.fst hd
    obtain ⟨p, hp, hpd⟩ := List.mem_map.mp this
    obtain ⟨s, _, hcs⟩ := hsucc p hp
    rw [← hpd, hcs]
    rfl
  have hremtwo : (batchProbe false
      (abatch_analyze_documents extract stamp save false cache stats docs π).cache
      (abatch_analyze_documents extract stamp save false cache stats docs π).stats docs).2.1
      = [] := by
    rw [batchProbe_false_eq]
    refine List.filter_eq_nil_iff.mpr fun d hd hne => ?_
    have := hfull d hd
    rcases hcd : (abatch_analyze_documents extract stamp save false cache stats docs π).cache d.1
      with _ | s
    · rw [hcd] at this
      simp at this
    · rw [hcd] at hne
      simp at hne
  have hhitstwo : (batchProbe false
      (abatch_analyze_documents extract stamp save false cache stats docs π).cache
      (abatch_analyze_documents extract stamp save false cache stats docs π).stats docs).1
      = (batchPairs extract false cache stats docs π).filterMap (mergeOutcomeArtifact stamp) := by
    rw [batchProbe_false_eq]
    exact filterMap_cache_lockstep _ _ docs (batchPairs extract false cache stats docs π)
      hfst.symm hsucc
  -- The second call performs no merge work: its pair list is empty.
  have hpairstwo : batchPairs extract false
      (abatch_analyze_documents extract stamp save false cache stats docs π).cache
      (abatch_analyze_documents extract stamp save false cache stats docs π).stats docs []
      = [] := by
    unfold batchPairs completionResults
    simp
  refine ⟨?_, ?_, ?_⟩
  · show ((batchPairs extract false
        (abatch_analyze_documents extract stamp save false cache stats docs π).cache
        (abatch_analyze_documents extract stamp save false cache stats docs π).stats docs
        []).foldl (mergeStep stamp save) _).analyzed_docs = _
    rw [hpairstwo]
    show (batchProbe false
        (abatch_analyze_documents extract stamp save false cache stats docs π).cache
        (abatch_analyze_documents extract stamp save false cache stats docs π).stats docs).1
      = _
    rw [hhitstwo, hret]
  · show (batchProbe false
        (abatch_analyze_documents extract stamp save false cache stats docs π).cache
        (abatch_analyze_documents extract stamp save false cache stats docs π).stats docs).2.1.length
      = 0
    rw [hremtwo]
    rfl
  · show ((batchPairs extract false
        (abatch_analyze_documents extract stamp save false cache stats docs π).cache
        (abatch_analyze_documents extract stamp save false cache stats docs π).stats docs
        []).foldl (mergeStep stamp save) _).stats.cache_hits = _
    rw [mergeFold_cache_hits]
    show (batchProbe false
        (abatch_analyze_documents extract stamp save false cache stats docs π).cache
        (abatch_analyze_documents extract stamp save false cache stats docs π).stats docs).2.2.cache_hits
      = _
    rw [batchProbe_stats]
    have hlen2 : (batchProbe false
        (abatch_analyze_documents extract stamp save false cache stats docs π).cache
        (abatch_analyze_documents extract stamp save false cache stats docs π).stats docs).1.length
        = docs.length := by
      rw [hhitstwo, ← hret, hretlen]
    simp only []
    rw [hlen2]

/-- C4 witness: a two-document batch from an empty store, completion order
swapped; the repeated call returns the identical list, makes no extraction
call and hits the cache twice. -/
theorem C4_idempotence_witness :
    (abatch_analyze_documents wExtract wStamp wSaveOk false
        (abatch_analyze_documents wExtract wStamp wSaveOk false (fun _ => none)
          ProcessingStats.init [("d1", "x"), ("d2", "yy")] [1, 0]).cache
        (abatch_analyze_documents wExtract wStamp wSaveOk false (fun _ => none)
          ProcessingStats.init [("d1", "x"), ("d2", "yy")] [1, 0]).stats
        [("d1", "x"), ("d2", "yy")] []).analyzed_docs
      = (abatch_analyze_documents wExtract wStamp wSaveOk false (fun _ => none)
          ProcessingStats.init [("d1", "x"), ("d2", "yy")] [1, 0]).analyzed_docs ∧
    (abatch_analyze_documents wExtract wStamp wSaveOk false
        (abatch_analyze_documents wExtract wStamp wSaveOk false (fun _ => none)
          ProcessingStats.init [("d1", "x"), ("d2", "yy")] [1, 0]).cache
        (abatch_analyze_documents wExtract wStamp wSaveOk false (fun _ => none)
          ProcessingStats.init [("d1", "x"), ("d2", "yy")] [1, 0]).stats
        [("d1", "x"), ("d2", "yy")] []).extract_calls = 0 ∧
    (abatch_analyze_documents wExtract wStamp wSaveOk false
        (abatch_analyze_documents wExtract wStamp wSaveOk false (fun _ => none)
          ProcessingStats.init [("d1", "x"), ("d2", "yy")] [1, 0]).cache
        (abatch_analyze_documents wExtract wStamp wSaveOk false (fun _ => none)
          ProcessingStats.init [("d1", "x"), ("d2", "yy")] [1, 0]).stats
        [("d1", "x"), ("d2", "yy")] []).stats.cache_hits
      = (abatch_analyze_documents wExtract wStamp wSaveOk false (fun _ => none)
          ProcessingStats.init [("d1", "x"), ("d2", "yy")] [1, 0]).stats.cache_hits + 2 :=
  C4_idempotence wExtract wStamp wSaveOk (fun _ => none) ProcessingStats.init
    [("d1", "x"), ("d2", "yy")] [1, 0]
    (by decide) (by decide) (by decide) (by decide) (fun _ _ => rfl) (fun _ _ => rfl)
